import Mathlib

/-!
# Verification of the AF2multimer-analysis contact/interface engine

Shallow embedding of `colabfold_analysis.py`.  Python floats are modelled as
exact rationals (`ℚ`) wherever the program only adds, multiplies, compares and
divides them; the transcendental interface score (`exp`, `log10`) is modelled
over `ℝ`.  File and text I/O (PDB/JSON parsing, glob, CSV) are external
collaborators: the embedded functions receive the already-parsed payloads
(atom records, flattened PAE value lists) as arguments, exactly in the shape
the source functions produce/consume them.
-/

/-- A 3-D coordinate vector, the `[x, y, z]` triple parsed by
`atom_from_pdb_line` (the `dist2` of the source rejects vectors whose length is
not 3; the type fixes that length). -/
structure V3 (α : Type) where
  x : α
  y : α
  z : α
deriving DecidableEq, Repr

/-- `dist2(v1, v2)`: squared Euclidean distance between two 3-D coordinates
(source lines 166-180). -/
def dist2 (v1 v2 : V3 ℚ) : ℚ :=
  (v1.x - v2.x) ^ 2 + (v1.y - v2.y) ^ 2 + (v1.z - v2.z) ^ 2

/-- An atom as produced by `atom_from_pdb_line`: a type label
(`atom_line[13:16].strip()`) and a 3-D coordinate. -/
structure Atom where
  type : String
  xyz : V3 ℚ
deriving DecidableEq, Repr

/-- The running minimum computed by `get_closest_atoms` (source lines
193-209): the minimum of `dist2` over all atom pairs of two residues, starting
from the sentinel `1e6`.  The source keeps the running minimum via
`if d2 < min_d2`, which is the `min` fold below. -/
def get_closest_atoms_d2 (r1_atoms r2_atoms : List (V3 ℚ)) : ℚ :=
  r1_atoms.foldl (fun m a1 => r2_atoms.foldl (fun m2 a2 => min m2 (dist2 a1 a2)) m) 1000000

/-- Broad-phase candidate test of `get_contacts_from_structure` (source lines
336-337 and 415-417): the squared distance between the backbone
nitrogen coordinates of the two residues is below the relaxed cutoff `(max_distance + 20) ** 2`. -/
def broad_phase_candidate (max_distance : ℚ) (n1 n2 : V3 ℚ) : Prop :=
  dist2 n1 n2 < (max_distance + 20) ^ 2

/-- Narrow-phase acceptance test of `get_contacts_from_structure` (source
lines 339 and 424-425): the minimum squared distance over all atom pairs of
the two residues is below `max_distance ** 2`. -/
def narrow_phase_accept (max_distance : ℚ) (r1_atoms r2_atoms : List (V3 ℚ)) : Prop :=
  get_closest_atoms_d2 r1_atoms r2_atoms < max_distance ^ 2

instance (d : ℚ) (n1 n2 : V3 ℚ) : Decidable (broad_phase_candidate d n1 n2) := by
  unfold broad_phase_candidate; infer_instance

instance (d : ℚ) (l1 l2 : List (V3 ℚ)) : Decidable (narrow_phase_accept d l1 l2) := by
  unfold narrow_phase_accept; infer_instance

/-- A coordinate triple as a point of 3-dimensional Euclidean space, used to
relate `dist2` to the metric-space distance. -/
noncomputable def toE (v : V3 ℚ) : EuclideanSpace ℝ (Fin 3) :=
  ![(v.x : ℝ), (v.y : ℝ), (v.z : ℝ)]

/-- The fitted logistic interface score of `get_pdockq_elofsson` (source lines
312-318): `0.724 / (1 + exp(-0.052 * (x - 152.611))) + 0.018` with
`x = avg_if_plddt * log10(n_if_contacts)`. -/
noncomputable def pdockq_score (avg_if_plddt : ℝ) (n_if_contacts : ℕ) : ℝ :=
  0.724 / (1 + Real.exp (-0.052 * (avg_if_plddt * Real.logb 10 (n_if_contacts : ℝ) - 152.611)))
    + 0.018

/-- Interface contacts of `get_pdockq_elofsson` (source lines 301-308): all
index pairs of representative atoms of chain 1 and chain 2 whose distance is
at most `t = 8` Å.  The source compares `sqrt(d2) <= 8`; over nonnegative
numbers this is `d2 <= 64`, which keeps the definition in `ℚ`. -/
def if_contacts (coords1 coords2 : List (V3 ℚ)) : List (ℕ × ℕ) :=
  coords1.enum.flatMap fun p1 =>
    coords2.enum.filterMap fun p2 =>
      if dist2 p1.2 p2.2 ≤ 64 then some (p1.1, p2.1) else none

/-- `get_pdockq_elofsson` (source lines 267-318) after the PDB text has been
parsed into the per-chain representative-atom coordinates and pLDDT lists the
source builds from `CB`/`CA` records: zero interface contacts return score 0,
otherwise the logistic score of the average pLDDT over the distinct interface
residues of either side (`np.unique` sorts and deduplicates; only the
deduplicated value multiset matters for the average, kept here as `dedup`). -/
noncomputable def get_pdockq_elofsson (coords1 coords2 : List (V3 ℚ))
    (plddt1 plddt2 : List ℚ) : ℝ :=
  let contacts := if_contacts coords1 coords2
  if contacts.length < 1 then 0
  else
    let if1 := (contacts.map (·.1)).dedup
    let if2 := (contacts.map (·.2)).dedup
    let vals := if1.map (fun i => plddt1.getD i 0) ++ if2.map (fun i => plddt2.getD i 0)
    pdockq_score ((vals.sum / (vals.length : ℚ) : ℚ) : ℝ) contacts.length

/-- The Python exceptions the embedded functions can raise (`ValueError`,
`KeyError` from the amino-acid map, `IndexError` from indexing into an empty regex match list,
`NameError` from reading the `residue` variable before any residue exists). -/
inductive PyErr where
  | invalidModelNum
  | modelMismatch
  | paeParseError
  | paeIndexError
  | keyError
  | nameError
  | indexError
deriving DecidableEq, Repr

/-- Does this suffix of the filename start with the literal `model_`?  Helper
for the leftmost-match scan of the regex pattern of `get_af_model_num`
(the literal `model_` followed by one or more digits). -/
def startsWithModelUnd : List Char → Bool
  | 'm' :: 'o' :: 'd' :: 'e' :: 'l' :: '_' :: _ => true
  | _ => false

/-- `"model_" in filename` (source line 99). -/
def containsModelUnd : List Char → Bool
  | [] => false
  | c :: rest => startsWithModelUnd (c :: rest) || containsModelUnd rest

/-- `int(...)` on a string of decimal digits. -/
def digitsVal (ds : List Char) : ℕ :=
  ds.foldl (fun a c => 10 * a + (c.toNat - 48)) 0

/-- The first (leftmost) regex match of `get_af_model_num`: the maximal digit run
following the first occurrence of `model_` that is followed by at least one
digit; `none` when the regex has no match. -/
def findModelNum : List Char → Option ℕ
  | [] => none
  | c :: rest =>
    if startsWithModelUnd (c :: rest) ∧ ((c :: rest).drop 6).takeWhile Char.isDigit ≠ [] then
      some (digitsVal (((c :: rest).drop 6).takeWhile Char.isDigit))
    else findModelNum rest

/-- `get_af_model_num` (source lines 92-102): 0 when `model_` does not occur
in the filename, otherwise the integer of the first `model_\d+` match;
taking the head of the match list raises `IndexError` when `model_` occurs but
is never followed by a digit. -/
def get_af_model_num (filename : String) : Except PyErr ℕ :=
  if containsModelUnd filename.toList = false then .ok 0
  else
    match findModelNum filename.toList with
    | some n => .ok n
    | none => .error .indexError

/-- `get_pae_values_from_json_file` (source lines 131-163) after the JSON text
has been split into the flattened list of PAE values (file reading and string
splitting are external): the only logic retained by the embedding is the
shape validation `len(pae_data) != int(math.sqrt(len(pae_data))) ** 2`, with
`int(math.sqrt n)` modelled by `Nat.sqrt`. -/
def get_pae_values (pae_data : List ℚ) : Except PyErr (List ℚ) :=
  if pae_data.length ≠ Nat.sqrt pae_data.length ^ 2 then .error .paeParseError
  else .ok pae_data

/-- `pae_data[k]` for a (nonnegative) linear index. -/
def paeAt (pae_data : List ℚ) (k : ℤ) : ℚ :=
  pae_data.getD k.toNat 0

/-- The linear PAE index of `get_contacts` (source lines 489-490):
`total_aa_length * (i - 1) + j - 1` for 1-based residue absolute indices. -/
def pae_linear_index (total_aa_length : ℕ) (i j : ℤ) : ℤ :=
  (total_aa_length : ℤ) * (i - 1) + j - 1

/-- Combination of the two directional PAE values (source lines 498-499):
`0.5 * (v1 + v2)` in `avg` mode, `min` otherwise. -/
def combine_pae (pae_mode : String) (v1 v2 : ℚ) : ℚ :=
  if pae_mode = "avg" then 0.5 * (v1 + v2) else min v1 v2

/-- One endpoint (`aa1`/`aa2`) of a geometric contact produced by
`get_contacts_from_structure` (source lines 429-432): chain id, one-letter
type, in-chain index, absolute index, closest-atom label, pLDDT. -/
structure ContactAA where
  chain : String
  type : Char
  c_ix : ℤ
  a_ix : ℕ
  atom : String
  plddt : ℚ
deriving DecidableEq, Repr

/-- A geometric contact record as appended at source lines 427-433. -/
structure GeoContact where
  distance : ℚ
  aa1 : ContactAA
  aa2 : ContactAA
deriving DecidableEq, Repr

/-- A filtered contact record as stored at source lines 519-528. -/
structure FContact where
  chains : String × String
  inchain_indices : ℤ × ℤ
  types : Char × Char
  pae : ℚ
  paes : ℚ × ℚ
  plddts : ℚ × ℚ
  model : ℕ
  distance : ℚ
deriving DecidableEq, Repr

/-- Insertion-ordered dictionary lookup (Python `d[k]` / `k in d`). -/
def dictFind {β : Type} (d : List (String × β)) (k : String) : Option β :=
  (d.find? (fun p => p.1 == k)).map (·.2)

/-- Insertion-ordered dictionary assignment `d[k] = v`: replaces in place when
the key exists, appends otherwise. -/
def dictSet {β : Type} (d : List (String × β)) (k : String) (v : β) : List (String × β) :=
  if (d.find? (fun p => p.1 == k)).isSome then
    d.map (fun p => if p.1 == k then (k, v) else p)
  else d ++ [(k, v)]

/-- The nested dictionary `filtered_contacts` of `get_contacts`. -/
def FilteredContacts : Type := List (String × List (String × FContact))

instance : DecidableEq FilteredContacts := by
  unfold FilteredContacts; infer_instance

/-- The body of the `for c in contacts` loop of `get_contacts` (source lines
478-528): PAE lookup with bounds check, combination, `max_pae` filter,
amino-acid-type filter, then keyed insertion into `filtered_contacts`. -/
def process_contact (model_num : ℕ) (ignore_pae : Bool) (pae_data : List ℚ)
    (total_aa_length : ℕ) (max_pae : ℚ) (pae_mode : String) (valid_aas : List Char)
    (acc : FilteredContacts) (c : GeoContact) : Except PyErr FilteredContacts :=
  let aa1 := c.aa1
  let aa2 := c.aa2
  let step2 : ℚ → ℚ × ℚ → Except PyErr FilteredContacts := fun pae_value pae_values =>
    if 0 < valid_aas.length ∧ (aa1.type ∉ valid_aas ∨ aa2.type ∉ valid_aas) then .ok acc
    else
      let chain_contact_id := aa1.chain ++ ":" ++ aa2.chain
      let inner := match dictFind acc chain_contact_id with
        | none => []
        | some l => l
      let contact_id := toString aa1.a_ix ++ "&" ++ toString aa2.a_ix
      let record : FContact :=
        { chains := (aa1.chain, aa2.chain)
          inchain_indices := (aa1.c_ix, aa2.c_ix)
          types := (aa1.type, aa2.type)
          pae := pae_value
          paes := pae_values
          plddts := (aa1.plddt, aa2.plddt)
          model := model_num
          distance := c.distance }
      .ok (dictSet acc chain_contact_id (dictSet inner contact_id record))
  if ignore_pae then step2 0 (0, 0)
  else
    let pae_index_1 := pae_linear_index total_aa_length (aa1.a_ix : ℤ) (aa2.a_ix : ℤ)
    let pae_index_2 := pae_linear_index total_aa_length (aa2.a_ix : ℤ) (aa1.a_ix : ℤ)
    if pae_index_1 ≥ (pae_data.length : ℤ) ∨ pae_index_2 ≥ (pae_data.length : ℤ) then
      .error .paeIndexError
    else
      let v1 := paeAt pae_data pae_index_1
      let v2 := paeAt pae_data pae_index_2
      let pae_value := combine_pae pae_mode v1 v2
      if pae_value > max_pae then .ok acc
      else step2 pae_value (v1, v2)

/-- `get_contacts` (source lines 437-530), with the two file-reading
collaborators replaced by their parsed payloads: `contacts` is the result of
`get_contacts_from_structure(pdb_filename, ...)` and `pae_payload` the
flattened value list read from `pae_filename`.  Order of effects is the
that of the source: model-number validation, the empty-contacts short-circuit, PAE
payload validation, then the filtering loop. -/
def get_contacts (pdb_filename pae_filename : String) (contacts : List GeoContact)
    (pae_payload : List ℚ) (max_pae : ℚ) (pae_mode : String) (valid_aas : List Char) :
    Except PyErr FilteredContacts := do
  let ignore_pae := pae_filename.length == 0
  let model_num ← get_af_model_num pdb_filename
  if model_num < 1 ∨ model_num > 5 then throw .invalidModelNum
  else do
    if ignore_pae = false then
      let pae_model ← get_af_model_num pae_filename
      if model_num ≠ pae_model then throw .modelMismatch
    if contacts.length < 1 then return []
    else do
      let pae_data ← if ignore_pae then pure [] else get_pae_values pae_payload
      let total_aa_length := Nat.sqrt pae_data.length
      contacts.foldlM
        (process_contact model_num ignore_pae pae_data total_aa_length max_pae pae_mode valid_aas)
        []

/-- Round to one decimal, `round(x, 1)` (Python rounds its float argument to
the nearest representable tenth; no value in this development sits on a tie). -/
def round1 (q : ℚ) : ℚ :=
  ((round (10 * q) : ℤ) : ℚ) / 10

/-- The summary record returned by `calculate_interface_statistics` (source
lines 584-587): contact count, the `[min, avg, max]` triples for pLDDT and
PAE, and the average distance (the `interchain_lbl` only decorates the
dictionary keys in the source and is dropped here). -/
structure IfStats where
  num_contacts : ℕ
  plddt : ℚ × ℚ × ℚ
  pae : ℚ × ℚ × ℚ
  distance_avg : ℚ
deriving DecidableEq, Repr

/-- The running accumulators of `calculate_interface_statistics` with their
initial values (source lines 540-554): pLDDT min/max start at 100/0, PAE
min/max at 30/0, sums at 0. -/
structure IfAcc where
  plddt_sum : ℚ
  plddt_min : ℚ
  plddt_max : ℚ
  pae_sum : ℚ
  pae_min : ℚ
  pae_max : ℚ
  d_sum : ℚ
  num_contacts : ℕ
deriving DecidableEq, Repr

/-- `calculate_interface_statistics` (source lines 533-589): accumulate the
per-contact mean pLDDT, the combined PAE and the distance over the contacts
stored under `interchain_id` (an absent key yields the empty dictionary), then
finalize: averages rounded to one decimal when contacts exist, otherwise the
mins are overwritten with the 0 sentinels. -/
def calculate_interface_statistics (interchain_id : String)
    (contacts : FilteredContacts) : IfStats :=
  let interchain_contacts := match dictFind contacts interchain_id with
    | none => []
    | some l => l
  let acc := interchain_contacts.foldl
    (fun (a : IfAcc) (p : String × FContact) =>
      let contact := p.2
      let avg_plddt := (contact.plddts.1 + contact.plddts.2) / 2
      { plddt_sum := a.plddt_sum + avg_plddt
        plddt_min := min a.plddt_min avg_plddt
        plddt_max := max a.plddt_max avg_plddt
        pae_sum := a.pae_sum + contact.pae
        pae_min := min a.pae_min contact.pae
        pae_max := max a.pae_max contact.pae
        d_sum := a.d_sum + contact.distance
        num_contacts := a.num_contacts + 1 })
    { plddt_sum := 0, plddt_min := 100, plddt_max := 0
      pae_sum := 0, pae_min := 30, pae_max := 0, d_sum := 0, num_contacts := 0 }
  if 0 < acc.num_contacts then
    { num_contacts := acc.num_contacts
      plddt := (acc.plddt_min, round1 (acc.plddt_sum / acc.num_contacts), acc.plddt_max)
      pae := (acc.pae_min, round1 (acc.pae_sum / acc.num_contacts), acc.pae_max)
      distance_avg := round1 (acc.d_sum / acc.num_contacts) }
  else
    { num_contacts := 0
      plddt := (0, 0, 0)
      pae := (0, 0, 0)
      distance_avg := 0 }

/-- The per-model roll-up stored in `if_stats` at source lines 780-783 plus
the local `model_total_pdockq` used by the best-model comparison at line 789
and the `model_num` attached at lines 787/791. -/
structure ModelIfStats where
  model_total_pdockq : ℚ
  model_all_avg_pdockq : ℚ
  model_all_avg_plddt : ℚ
  model_all_avg_pae : ℚ
  model_num : ℕ
deriving DecidableEq, Repr

/-- The accumulation of source lines 739-783 for one model: each chain pair
contributes its interface pDockQ (`pdockq_{chain_lbl}`, computed from the PDB
file and therefore an input here) and the `avg` components of its
`calculate_interface_statistics` triples; the three totals are then divided by
`len(chain_list)` — the number of chains — to give the `model_all_avg_*`
values. -/
def modelStats (numChains : ℕ) (model_num : ℕ) (pairStats : List (IfStats × ℚ)) :
    ModelIfStats :=
  let totals := pairStats.foldl
    (fun (t : ℚ × ℚ × ℚ) p =>
      (t.1 + p.2, t.2.1 + p.1.plddt.2.1, t.2.2 + p.1.pae.2.1))
    (0, 0, 0)
  { model_total_pdockq := totals.1
    model_all_avg_pdockq := totals.1 / (numChains : ℚ)
    model_all_avg_plddt := totals.2.1 / (numChains : ℚ)
    model_all_avg_pae := totals.2.2 / (numChains : ℚ)
    model_num := model_num }

/-- The best-model update of `analyze_complexes` (source lines 784-791): the
first model is kept unconditionally; afterwards the incumbent is replaced
exactly when the `model_total_pdockq` of the current model exceeds the
`model_all_avg_pdockq` stored for the incumbent. -/
def selectBest (best : Option ModelIfStats) (cur : ModelIfStats) : Option ModelIfStats :=
  match best with
  | none => some cur
  | some b => if cur.model_total_pdockq > b.model_all_avg_pdockq then some cur else some b

/-- The `best_interface_stats` left after iterating the models of one complex
in order (source loop at lines 712-791). -/
def bestModelStats (models : List ModelIfStats) : Option ModelIfStats :=
  models.foldl selectBest none

/-- `distribute` (source lines 70-89): error for `n_bins < 1`, otherwise
round-robin distribution of the enumerated items over
`min(n_bins, len(lst))` bins. -/
def distribute {α : Type} (lst : List α) (n_bins : ℤ) : Except String (List (List α)) :=
  if n_bins < 1 then .error "The number of bins must be greater than 0"
  else
    let n := min n_bins.toNat lst.length
    .ok (lst.enum.foldl
      (fun acc p => acc.set (p.1 % n) (acc.getD (p.1 % n) [] ++ [p.2]))
      (List.replicate n []))

/-- The groups `distribute` returns, described directly: bin `g` holds, in
input order, exactly the items whose position is congruent to `g` modulo the
number of bins. -/
def roundRobinGroups {α : Type} (lst : List α) (n : ℕ) : List (List α) :=
  (List.range n).map (fun g => (lst.enum.filter (fun p => p.1 % n == g)).map (·.2))

/-- `aa_3c_to_1c` (source lines 19-40): the three-letter to one-letter
amino-acid code map; `none` models the `KeyError` of a missing key. -/
def aa_3c_to_1c (res3 : String) : Option Char :=
  if res3 = "ALA" then some 'A'
  else if res3 = "CYS" then some 'C'
  else if res3 = "ASP" then some 'D'
  else if res3 = "GLU" then some 'E'
  else if res3 = "PHE" then some 'F'
  else if res3 = "GLY" then some 'G'
  else if res3 = "HIS" then some 'H'
  else if res3 = "ILE" then some 'I'
  else if res3 = "LYS" then some 'K'
  else if res3 = "LEU" then some 'L'
  else if res3 = "MET" then some 'M'
  else if res3 = "ASN" then some 'N'
  else if res3 = "PRO" then some 'P'
  else if res3 = "GLN" then some 'Q'
  else if res3 = "ARG" then some 'R'
  else if res3 = "SER" then some 'S'
  else if res3 = "THR" then some 'T'
  else if res3 = "VAL" then some 'V'
  else if res3 = "TRP" then some 'W'
  else if res3 = "TYR" then some 'Y'
  else none

/-- One line of a PDB file as `get_contacts_from_structure` slices it
(source lines 351-393): the record marker `line[0:4]`, the stripped atom name
`line[13:16].strip()`, the residue code `line[17:20]`, the stripped chain id
`line[20:22].strip()`, the residue sequence number `int(line[22:26])`, the
coordinates and the B-factor column holding the pLDDT. -/
structure AtomLine where
  record_name : String
  atom_type : String
  res3 : String
  chain : String
  c_ix : ℤ
  xyz : V3 ℚ
  bfactor : ℚ
deriving DecidableEq, Repr

/-- A residue record as built at source lines 386-387. -/
structure Residue where
  chain : String
  atoms : List Atom
  c_ix : ℤ
  a_ix : ℕ
  type : Char
  plddt : ℚ
deriving DecidableEq, Repr

/-- The mutable state of the parsing loop of `get_contacts_from_structure`
(source lines 340-349): `chain_index` is implicit as `residues.length - 1`
since it is incremented exactly when a chain is appended. -/
structure ParseState where
  last_chain : Option String
  abs_res_index : ℕ
  residues : List (List Residue)
  N_coords : List (List (V3 ℚ))
  chains : List String
deriving DecidableEq, Repr

/-- The initial parse state (source lines 340-349). -/
def initParseState : ParseState :=
  { last_chain := none, abs_res_index := 0, residues := [], N_coords := [], chains := [] }

/-- Replace the last element of a list (in-place mutation of
`residues[chain_index]` / its last entry). -/
def setLast {α : Type} (l : List α) (x : α) : List α :=
  l.dropLast ++ [x]

/-- Appending the atom to the atom list of the current residue (source line
393): the `residue` variable
always refers to the most recently created residue, i.e. the last residue of
the last chain; reading it before any residue was created raises `NameError`. -/
def appendAtomToCurrent (st : ParseState) (atom : Atom) : Except PyErr ParseState :=
  match st.residues.getLast? with
  | none => .error .nameError
  | some lastChain =>
    match lastChain.getLast? with
    | none => .error .nameError
    | some res =>
      .ok { st with residues := setLast st.residues
                        (setLast lastChain { res with atoms := res.atoms ++ [atom] }) }

/-- One iteration of the `for atom_line in ...` loop of
`get_contacts_from_structure` (source lines 351-393): skip non-`ATOM` lines;
count every backbone-nitrogen line in `abs_res_index` before any filtering;
drop atoms below the pLDDT cutoff; translate the residue code (`KeyError`
when unmapped); drop atoms whose type is outside `valid_aas` when that
restriction is active; open a new chain when the chain id changes; create a
residue on each surviving nitrogen; append the atom to the current residue. -/
def parseStep (min_plddt : ℚ) (valid_aas : List Char) (st : ParseState) (line : AtomLine) :
    Except PyErr ParseState :=
  if line.record_name ≠ "ATOM" then .ok st
  else
    let is_nitrogen := line.atom_type == "N"
    let st := if is_nitrogen then { st with abs_res_index := st.abs_res_index + 1 } else st
    if line.bfactor < min_plddt then .ok st
    else
      match aa_3c_to_1c line.res3 with
      | none => .error .keyError
      | some aa_type =>
        if 0 < valid_aas.length ∧ aa_type ∉ valid_aas then .ok st
        else
          let atom : Atom := { type := line.atom_type, xyz := line.xyz }
          let st :=
            if is_nitrogen then
              let st :=
                if st.last_chain ≠ some line.chain then
                  { st with
                      last_chain := some line.chain
                      residues := st.residues ++ [[]]
                      N_coords := st.N_coords ++ [[]]
                      chains := st.chains ++ [line.chain] }
                else st
              let residue : Residue :=
                { chain := line.chain, atoms := [], c_ix := line.c_ix
                  a_ix := st.abs_res_index, type := aa_type, plddt := line.bfactor }
              { st with
                  residues := setLast st.residues (st.residues.getLastD [] ++ [residue])
                  N_coords := setLast st.N_coords (st.N_coords.getLastD [] ++ [atom.xyz]) }
            else st
          appendAtomToCurrent st atom

/-- The whole parsing loop of `get_contacts_from_structure` run over the
lines of the file. -/
def parseLines (min_plddt : ℚ) (valid_aas : List Char) (st : ParseState) :
    List AtomLine → Except PyErr ParseState
  | [] => .ok st
  | line :: rest =>
    match parseStep min_plddt valid_aas st line with
    | .error e => .error e
    | .ok st1 => parseLines min_plddt valid_aas st1 rest

/-- Is this line an `ATOM` record whose atom name is the backbone-nitrogen
marker `N`?  Exactly these lines advance `abs_res_index`. -/
def isNAtomLine (line : AtomLine) : Bool :=
  line.record_name == "ATOM" && line.atom_type == "N"

/-- Does this line create a residue that is retained in the output: a
backbone-nitrogen `ATOM` line passing the pLDDT cutoff whose residue code maps
to a one-letter type allowed by `valid_aas`? -/
def residueKept (min_plddt : ℚ) (valid_aas : List Char) (line : AtomLine) : Bool :=
  isNAtomLine line && !(line.bfactor < min_plddt) &&
    (match aa_3c_to_1c line.res3 with
     | none => false
     | some aa_type => !(0 < valid_aas.length ∧ aa_type ∉ valid_aas))

/-- The expected `a_ix` sequence of the retained residues, reading the lines
in file order while carrying the running count `cnt` of backbone-nitrogen
`ATOM` records seen so far. -/
def keptAixs (min_plddt : ℚ) (valid_aas : List Char) (cnt : ℕ) :
    List AtomLine → List ℕ
  | [] => []
  | line :: rest =>
    let cnt1 := if isNAtomLine line then cnt + 1 else cnt
    if residueKept min_plddt valid_aas line then cnt1 :: keptAixs min_plddt valid_aas cnt1 rest
    else keptAixs min_plddt valid_aas cnt1 rest

/-- All residues of a parse state in file order. -/
def flatResidues (st : ParseState) : List Residue :=
  st.residues.flatten

/-- A fixed per-chain-pair statistics record used by the concrete best-model
and averaging scenarios below. -/
def demoPairIf : IfStats :=
  { num_contacts := 1, plddt := (80, 80, 80), pae := (10, 10, 10), distance_avg := 4 }

/-- A concrete geometric contact between residue 1 of chain A and residue 2 of
chain B, used by the PAE-lookup scenario. -/
def demoGeoContact : GeoContact :=
  { distance := 4
    aa1 := { chain := "A", type := 'K', c_ix := 1, a_ix := 1, atom := "N", plddt := 90 }
    aa2 := { chain := "B", type := 'R', c_ix := 1, a_ix := 2, atom := "CA", plddt := 85 } }

/-- A geometric contact whose first residue has absolute index 10, out of
range for a 2-residue PAE matrix: its linear index 2*(10-1)+(1-1) = 18 is
past the end of the 4-entry payload. -/
def badGeoContact : GeoContact :=
  { distance := 4
    aa1 := { chain := "A", type := 'K', c_ix := 1, a_ix := 10, atom := "N", plddt := 90 }
    aa2 := { chain := "B", type := 'R', c_ix := 1, a_ix := 1, atom := "CA", plddt := 85 } }

/-- The filtered record `process_contact` produces for `demoGeoContact`
against the 2-residue PAE matrix `[0, 5, 5, 0]` in `min` mode. -/
def demoFContact : FContact :=
  { chains := ("A", "B"), inchain_indices := (1, 1), types := ('K', 'R')
    pae := 5, paes := (5, 5), plddts := (90, 85), model := 1, distance := 4 }

/-- A small PDB slice for the absolute-index scenario: residue 1 of chain A
(backbone nitrogen plus one alpha-carbon), a residue whose nitrogen fails the
pLDDT cutoff 50, a non-atom record, and residue 1 of chain B. -/
def demoLines : List AtomLine :=
  [{ record_name := "ATOM", atom_type := "N", res3 := "ALA", chain := "A", c_ix := 1,
     xyz := ⟨0, 0, 0⟩, bfactor := 90 },
   { record_name := "ATOM", atom_type := "CA", res3 := "ALA", chain := "A", c_ix := 1,
     xyz := ⟨1, 0, 0⟩, bfactor := 88 },
   { record_name := "ATOM", atom_type := "N", res3 := "GLY", chain := "A", c_ix := 2,
     xyz := ⟨2, 0, 0⟩, bfactor := 10 },
   { record_name := "TER ", atom_type := "", res3 := "", chain := "", c_ix := 0,
     xyz := ⟨0, 0, 0⟩, bfactor := 0 },
   { record_name := "ATOM", atom_type := "N", res3 := "TYR", chain := "B", c_ix := 1,
     xyz := ⟨3, 0, 0⟩, bfactor := 95 }]

/-- The parse state `demoLines` produces with pLDDT cutoff 50 and no
amino-acid restriction: the filtered chain-A glycine still advanced the
absolute index, so the chain-B residue has `a_ix = 3`. -/
def demoParsedState : ParseState :=
  { last_chain := some "B"
    abs_res_index := 3
    residues := [[{ chain := "A"
                    atoms := [{ type := "N", xyz := ⟨0, 0, 0⟩ },
                              { type := "CA", xyz := ⟨1, 0, 0⟩ }]
                    c_ix := 1, a_ix := 1, type := 'A', plddt := 90 }],
                 [{ chain := "B"
                    atoms := [{ type := "N", xyz := ⟨3, 0, 0⟩ }]
                    c_ix := 1, a_ix := 3, type := 'Y', plddt := 95 }]]
    N_coords := [[⟨0, 0, 0⟩], [⟨3, 0, 0⟩]]
    chains := ["A", "B"] }

/-- The totals accumulated by `modelStats` equal the list sums of the three
per-pair components. -/
theorem modelStats_foldl_eq_sum (pairStats : List (IfStats × ℚ)) (t : ℚ × ℚ × ℚ) :
    pairStats.foldl
      (fun (t : ℚ × ℚ × ℚ) p => (t.1 + p.2, t.2.1 + p.1.plddt.2.1, t.2.2 + p.1.pae.2.1)) t =
    (t.1 + (pairStats.map (·.2)).sum,
     t.2.1 + (pairStats.map (·.1.plddt.2.1)).sum,
     t.2.2 + (pairStats.map (·.1.pae.2.1)).sum) := by
  induction pairStats generalizing t with
  | nil => simp
  | cons p rest ih =>
    simp only [List.foldl_cons, List.map_cons, List.sum_cons, ih]
    refine Prod.ext (by ring) (Prod.ext (by ring) (by ring))

/-- `Except` results are comparable whenever both components are. -/
instance {e a : Type} [DecidableEq e] [DecidableEq a] : DecidableEq (Except e a) := fun x y =>
  match x, y with
  | .ok u, .ok v => if h : u = v then .isTrue (by rw [h]) else .isFalse (by simp [h])
  | .ok _, .error _ => .isFalse (by simp)
  | .error _, .ok _ => .isFalse (by simp)
  | .error u, .error v => if h : u = v then .isTrue (by rw [h]) else .isFalse (by simp [h])

/-- `modelStats` evaluated on one chain pair for model 1 with pair pDockQ 3/5. -/
theorem modelStats_demo1 :
    modelStats 2 1 [(demoPairIf, 3/5)] =
      { model_total_pdockq := 3/5, model_all_avg_pdockq := 3/10
        model_all_avg_plddt := 40, model_all_avg_pae := 5, model_num := 1 } := by
  simp only [modelStats, demoPairIf, List.foldl_cons, List.foldl_nil, ModelIfStats.mk.injEq]
  norm_num

/-- `modelStats` evaluated on one chain pair for model 2 with pair pDockQ 2/5. -/
theorem modelStats_demo2 :
    modelStats 2 2 [(demoPairIf, 2/5)] =
      { model_total_pdockq := 2/5, model_all_avg_pdockq := 1/5
        model_all_avg_plddt := 40, model_all_avg_pae := 5, model_num := 2 } := by
  simp only [modelStats, demoPairIf, List.foldl_cons, List.foldl_nil, ModelIfStats.mk.injEq]
  norm_num

/-- C1 (code bug, evaluated at the failing input): with two chains (hence one
chain pair) per model, model 1 scoring pDockQ 3/5 on its pair and model 2
scoring 2/5, the comparison at source line 789 — the raw total of the current
model against the stored per-chain average of the incumbent — replaces model 1
by model 2 because 2/5 > (3/5)/2, even though the per-model average interface
score of model 2 (1/5) is strictly lower than that of model 1 (3/10).  The
claim (best model = highest per-model average, ties keep the first) is
violated by the code. -/
theorem C1_best_model_selection_at_failing_input :
    bestModelStats
        [modelStats 2 1 [(demoPairIf, 3/5)], modelStats 2 2 [(demoPairIf, 2/5)]] =
      some (modelStats 2 2 [(demoPairIf, 2/5)]) ∧
    (modelStats 2 2 [(demoPairIf, 2/5)]).model_all_avg_pdockq <
      (modelStats 2 1 [(demoPairIf, 3/5)]).model_all_avg_pdockq := by
  rw [bestModelStats, List.foldl_cons, List.foldl_cons, List.foldl_nil,
    modelStats_demo1, modelStats_demo2]
  constructor
  · show selectBest (selectBest none _) _ = _
    rw [selectBest, selectBest, if_pos (by norm_num)]
  · norm_num

/-- C2 (counterexample): for a model over two chains there is exactly one
chain pair; the claim says `model_all_avg_pdockq` is the mean over the
chain pairs (here the single value 1/2, and mean pLDDT 80), but the code
divides the totals by `len(chain_list) = 2`, giving 1/4 and 40. -/
theorem C2_counterexample :
    (modelStats 2 1 [(demoPairIf, 1/2)]).model_all_avg_pdockq = 1/4 ∧
    ([((demoPairIf, (1/2 : ℚ)))].map (·.2)).sum / (([((demoPairIf, (1/2 : ℚ)))].length : ℚ))
      = 1/2 ∧
    (1/4 : ℚ) ≠ 1/2 ∧
    (modelStats 2 1 [(demoPairIf, 1/2)]).model_all_avg_plddt = 40 ∧
    ([((demoPairIf, (1/2 : ℚ)))].map (·.1.plddt.2.1)).sum
        / (([((demoPairIf, (1/2 : ℚ)))].length : ℚ) ) = 80 ∧
    (40 : ℚ) ≠ 80 := by
  refine ⟨?_, ?_, by norm_num, ?_, ?_, by norm_num⟩
  · simp only [modelStats, demoPairIf, List.foldl_cons, List.foldl_nil]
    norm_num
  · simp only [demoPairIf, List.map_cons, List.map_nil, List.sum_cons, List.sum_nil,
      List.length_cons, List.length_nil]
    norm_num
  · simp only [modelStats, demoPairIf, List.foldl_cons, List.foldl_nil]
    norm_num
  · simp only [demoPairIf, List.map_cons, List.map_nil, List.sum_cons, List.sum_nil,
      List.length_cons, List.length_nil]
    norm_num

/-- C2 (amended): `model_all_avg_pdockq`, `model_all_avg_plddt` and
`model_all_avg_pae` are the accumulated totals over the chain pairs present in
the model divided by the number of chains (`len(chain_list)`), not by the
number of chain pairs. -/
theorem C2_model_averages (numChains model_num : ℕ) (pairStats : List (IfStats × ℚ)) :
    (modelStats numChains model_num pairStats).model_all_avg_pdockq
        = (pairStats.map (·.2)).sum / (numChains : ℚ) ∧
    (modelStats numChains model_num pairStats).model_all_avg_plddt
        = (pairStats.map (·.1.plddt.2.1)).sum / (numChains : ℚ) ∧
    (modelStats numChains model_num pairStats).model_all_avg_pae
        = (pairStats.map (·.1.pae.2.1)).sum / (numChains : ℚ) := by
  unfold modelStats
  rw [modelStats_foldl_eq_sum]
  norm_num

/-- C8: the two directional PAE values of a residue pair with 1-based absolute
indices `i`, `j` in an `N x N` row-major flattened matrix are read at linear
offsets `(i-1)*N + (j-1)` and `(j-1)*N + (i-1)`; `min` mode combines them with
`min`, `avg` mode with the mean; and on the concrete 2-residue matrix
`[0, 5, 5, 0]` with indices 1 and 2 the value at offset `0*2+1` is 5 and the
combined `min`-mode error is 5, as the full `process_contact` call confirms. -/
theorem C8_pae_indexing :
    (∀ (N : ℕ) (i j : ℤ),
        pae_linear_index N i j = (i - 1) * (N : ℤ) + (j - 1) ∧
        pae_linear_index N j i = (j - 1) * (N : ℤ) + (i - 1)) ∧
    (∀ v1 v2 : ℚ,
        combine_pae "min" v1 v2 = min v1 v2 ∧ combine_pae "avg" v1 v2 = (v1 + v2) / 2) ∧
    (pae_linear_index 2 1 2 = 0 * 2 + 1 ∧ paeAt [0, 5, 5, 0] (pae_linear_index 2 1 2) = 5 ∧
      combine_pae "min" (paeAt [0, 5, 5, 0] (pae_linear_index 2 1 2))
        (paeAt [0, 5, 5, 0] (pae_linear_index 2 2 1)) = 5) ∧
    process_contact 1 false [0, 5, 5, 0] 2 15 "min" [] [] demoGeoContact =
      .ok [("A:B", [("1&2", demoFContact)])] := by
  refine ⟨fun N i j => ⟨by unfold pae_linear_index; ring, by unfold pae_linear_index; ring⟩,
    fun v1 v2 => ⟨by simp [combine_pae], ?_⟩,
    ⟨by decide, by decide, ?_⟩, ?_⟩
  · rw [combine_pae, if_pos rfl]
    norm_num
    ring
  · rw [show paeAt [0, 5, 5, 0] (pae_linear_index 2 1 2) = 5 from by decide,
      show paeAt [0, 5, 5, 0] (pae_linear_index 2 2 1) = 5 from by decide]
    simp [combine_pae]
  · rw [process_contact]
    simp only [demoGeoContact]
    norm_num [pae_linear_index, paeAt, combine_pae, dictFind, dictSet, demoFContact]
    rfl

/-- The logistic curve of `pdockq_score` is monotone in its argument
`x = avg_if_plddt * log10(n_if_contacts)`. -/
theorem pdockq_sig_mono {x y : ℝ} (h : x ≤ y) :
    0.724 / (1 + Real.exp (-0.052 * (x - 152.611))) + 0.018 ≤
      0.724 / (1 + Real.exp (-0.052 * (y - 152.611))) + 0.018 := by
  have hy : (0 : ℝ) < 1 + Real.exp (-0.052 * (y - 152.611)) := by positivity
  have hle : 1 + Real.exp (-0.052 * (y - 152.611)) ≤ 1 + Real.exp (-0.052 * (x - 152.611)) := by
    have := Real.exp_le_exp.mpr (show -0.052 * (y - 152.611) ≤ -0.052 * (x - 152.611) by nlinarith)
    linarith
  have : (0.724 : ℝ) / (1 + Real.exp (-0.052 * (x - 152.611))) ≤
      0.724 / (1 + Real.exp (-0.052 * (y - 152.611))) :=
    div_le_div_of_nonneg_left (by norm_num) hy hle
  linarith

/-- The logistic curve of `pdockq_score` is bounded below by 0.018 and
strictly above by 0.742 for every real argument. -/
theorem pdockq_sig_bounds (x : ℝ) :
    0.018 ≤ 0.724 / (1 + Real.exp (-0.052 * (x - 152.611))) + 0.018 ∧
      0.724 / (1 + Real.exp (-0.052 * (x - 152.611))) + 0.018 < 0.742 := by
  have hx : (0 : ℝ) < 1 + Real.exp (-0.052 * (x - 152.611)) := by positivity
  have h1 : (1 : ℝ) < 1 + Real.exp (-0.052 * (x - 152.611)) := by
    have := Real.exp_pos (-0.052 * (x - 152.611))
    linarith
  constructor
  · have : (0 : ℝ) ≤ 0.724 / (1 + Real.exp (-0.052 * (x - 152.611))) := by positivity
    linarith
  · have : (0.724 : ℝ) / (1 + Real.exp (-0.052 * (x - 152.611))) < 0.724 := by
      rw [div_lt_iff₀ hx]
      nlinarith
    linarith

/-- C4: `pdockq_score` is monotonically non-decreasing in the average
interface confidence for any fixed contact count at least 1, monotonically
non-decreasing in the contact count for any fixed non-negative average
confidence, and for every non-empty contact set (count at least 1) its value
lies in the interval from 0.018 (inclusive) to 0.742 (exclusive). -/
theorem C4_pdockq_monotone_bounded :
    (∀ (a b : ℝ) (n : ℕ), 1 ≤ n → a ≤ b → pdockq_score a n ≤ pdockq_score b n) ∧
    (∀ (a : ℝ) (n m : ℕ), 0 ≤ a → 1 ≤ n → n ≤ m → pdockq_score a n ≤ pdockq_score a m) ∧
    (∀ (a : ℝ) (n : ℕ), 1 ≤ n → 0.018 ≤ pdockq_score a n ∧ pdockq_score a n < 0.742) := by
  refine ⟨fun a b n hn hab => ?_, fun a n m ha hn hnm => ?_, fun a n _ => pdockq_sig_bounds _⟩
  · apply pdockq_sig_mono
    have hlog : 0 ≤ Real.logb 10 (n : ℝ) :=
      Real.logb_nonneg (by norm_num) (by exact_mod_cast hn)
    exact mul_le_mul_of_nonneg_right hab hlog
  · apply pdockq_sig_mono
    have hlog : Real.logb 10 (n : ℝ) ≤ Real.logb 10 (m : ℝ) :=
      Real.logb_le_logb_of_le (by norm_num) (by exact_mod_cast hn) (by exact_mod_cast hnm)
    exact mul_le_mul_of_nonneg_left hlog ha

/-- Witness for C4 at average confidence 80 against 90 with 5 contacts. -/
theorem C4_pdockq_monotone_bounded_witness :
    pdockq_score 80 5 ≤ pdockq_score 90 5 ∧
    pdockq_score 80 5 ≤ pdockq_score 80 7 ∧
    (0.018 ≤ pdockq_score 80 5 ∧ pdockq_score 80 5 < 0.742) :=
  ⟨C4_pdockq_monotone_bounded.1 80 90 5 (by norm_num) (by norm_num),
   C4_pdockq_monotone_bounded.2.1 80 5 7 (by norm_num) (by norm_num) (by norm_num),
   C4_pdockq_monotone_bounded.2.2 80 5 (by norm_num)⟩

/-- Monadic bind on an `ok` value runs the continuation. -/
theorem exceptBind_ok {e a b : Type} (x : a) (f : a → Except e b) :
    (Except.ok x >>= f) = f x := rfl

/-- Monadic bind on an `error` value propagates the error. -/
theorem exceptBind_error {e a b : Type} (err : e) (f : a → Except e b) :
    ((Except.error err : Except e a) >>= f) = Except.error err := rfl

/-- A raised exception aborts the rest of the computation. -/
theorem exceptThrow_bind {e a : Type} (err : e) (k : PUnit → Except e a) :
    ((throw err : Except e PUnit) >>= k) = Except.error err := rfl

/-- A no-op statement continues with the rest of the computation. -/
theorem exceptPure_bind {e a : Type} (k : PUnit → Except e a) :
    ((pure PUnit.unit : Except e PUnit) >>= k) = k PUnit.unit := rfl

/-- A string has length zero exactly when it is empty. -/
theorem string_length_eq_zero_iff (s : String) : s.length = 0 ↔ s = "" := by
  cases s with
  | mk data =>
    cases data with
    | nil => simp [String.length]
    | cons c cs =>
      simp [String.length]
      intro hc
      exact absurd (congrArg (fun t => t.data) hc) (by simp)

/-- C5: with zero geometric contacts between the chains, `get_contacts`
returns the empty result before any PAE processing (the payload is arbitrary
and may even be malformed), `calculate_interface_statistics` on a chain pair
with no stored contacts reports count 0 with pLDDT-min 0 and PAE-min 0 (the
sentinels, not the accumulation defaults 100 and 30), and
`get_pdockq_elofsson` with no interface contacts returns score 0; none of
these is an error. -/
theorem C5_zero_contacts :
    (∀ (pdb pae : String) (payload : List ℚ) (mp : ℚ) (mode : String)
        (aas : List Char) (m : ℕ),
        get_af_model_num pdb = .ok m → 1 ≤ m → m ≤ 5 →
        (pae = "" ∨ get_af_model_num pae = .ok m) →
        get_contacts pdb pae [] payload mp mode aas = .ok []) ∧
    (∀ (cid : String) (contacts : FilteredContacts),
        (dictFind contacts cid = none ∨ dictFind contacts cid = some []) →
        calculate_interface_statistics cid contacts =
          { num_contacts := 0, plddt := (0, 0, 0), pae := (0, 0, 0), distance_avg := 0 }) ∧
    (∀ (c1 c2 : List (V3 ℚ)) (p1 p2 : List ℚ),
        if_contacts c1 c2 = [] → get_pdockq_elofsson c1 c2 p1 p2 = 0) := by
  refine ⟨fun pdb pae payload mp mode aas m h h1 h5 hpae => ?_,
    fun cid contacts hfind => ?_, fun c1 c2 p1 p2 hif => ?_⟩
  · rw [get_contacts]
    simp only [h, exceptBind_ok]
    rw [if_neg (by omega)]
    by_cases hig : pae.length == 0
    · simp only [hig]
      rw [if_neg (by simp)]
      rfl
    · have hlen : (pae.length == 0) = false := by simpa using hig
      simp only [hlen]
      rw [if_pos trivial]
      rcases hpae with hpae | hpae
      · rw [hpae] at hlen
        simp [String.length] at hlen
      · simp only [hpae, exceptBind_ok]
        rw [if_neg (by omega), exceptPure_bind]
        rfl
  · rw [calculate_interface_statistics]
    rcases hfind with hfind | hfind <;> simp only [hfind] <;> rfl
  · rw [get_pdockq_elofsson]
    simp only [hif]
    rfl

/-- Witness for C5: a valid model-1 structure name with no geometric contacts
and a malformed 3-entry payload still yields the empty result; the statistics
of an absent chain pair are all zero; the score of an empty interface is 0. -/
theorem C5_zero_contacts_witness :
    get_contacts "x_model_1.pdb" "" [] [0, 5, 5] 15 "min" [] = .ok [] ∧
    calculate_interface_statistics "A:B" [] =
      { num_contacts := 0, plddt := (0, 0, 0), pae := (0, 0, 0), distance_avg := 0 } ∧
    get_pdockq_elofsson [] [] [] [] = 0 :=
  ⟨C5_zero_contacts.1 "x_model_1.pdb" "" [0, 5, 5] 15 "min" [] 1 (by decide) (by decide)
      (by decide) (Or.inl rfl),
   C5_zero_contacts.2.1 "A:B" [] (Or.inl rfl),
   C5_zero_contacts.2.2 [] [] [] [] rfl⟩

/-- C6: `get_contacts` fails whenever the model number extracted from the
structure filename is outside 1..5 (a filename without `model_` yields model
number 0 and therefore also fails), propagates the extraction failure itself
(`model_` present with no digits), and, when a PAE file is supplied (non-empty
filename), fails whenever the two model numbers differ. -/
theorem C6_model_num_validation :
    (∀ (pdb pae : String) (contacts : List GeoContact) (payload : List ℚ)
        (mp : ℚ) (mode : String) (aas : List Char) (m : ℕ),
        get_af_model_num pdb = .ok m → (m < 1 ∨ 5 < m) →
        get_contacts pdb pae contacts payload mp mode aas = .error .invalidModelNum) ∧
    (∀ (pdb pae : String) (contacts : List GeoContact) (payload : List ℚ)
        (mp : ℚ) (mode : String) (aas : List Char) (e : PyErr),
        get_af_model_num pdb = .error e →
        get_contacts pdb pae contacts payload mp mode aas = .error e) ∧
    (∀ (pdb pae : String) (contacts : List GeoContact) (payload : List ℚ)
        (mp : ℚ) (mode : String) (aas : List Char) (m m2 : ℕ),
        get_af_model_num pdb = .ok m → 1 ≤ m → m ≤ 5 →
        pae ≠ "" → get_af_model_num pae = .ok m2 → m ≠ m2 →
        get_contacts pdb pae contacts payload mp mode aas = .error .modelMismatch) := by
  refine ⟨fun pdb pae contacts payload mp mode aas m h hm => ?_,
    fun pdb pae contacts payload mp mode aas e h => ?_,
    fun pdb pae contacts payload mp mode aas m m2 h h1 h5 hp h2 hne => ?_⟩
  · rw [get_contacts]
    simp only [h, exceptBind_ok]
    rw [if_pos (by omega)]
    rfl
  · rw [get_contacts]
    simp only [h, exceptBind_error]
  · rw [get_contacts]
    simp only [h, exceptBind_ok]
    rw [if_neg (by omega)]
    have hlen : (pae.length == 0) = false := by
      simp only [beq_eq_false_iff_ne, ne_eq, string_length_eq_zero_iff]
      exact hp
    simp only [hlen]
    rw [if_pos trivial]
    simp only [h2, exceptBind_ok]
    rw [if_pos hne]
    simp only [exceptThrow_bind]

/-- Witness for C6: a name without a model number, a name whose `model_` tag
has no digits, and a mismatched structure/PAE pair all make `get_contacts`
fail. -/
theorem C6_model_num_validation_witness :
    get_contacts "x.pdb" "" [] [] 15 "min" [] = .error .invalidModelNum ∧
    get_contacts "x_model_y.pdb" "" [] [] 15 "min" [] = .error .indexError ∧
    get_contacts "x_model_1.pdb" "x_model_2.json" [] [] 15 "min" [] =
      .error .modelMismatch :=
  ⟨C6_model_num_validation.1 "x.pdb" "" [] [] 15 "min" [] 0 (by decide) (by decide),
   C6_model_num_validation.2.1 "x_model_y.pdb" "" [] [] 15 "min" [] .indexError (by decide),
   C6_model_num_validation.2.2 "x_model_1.pdb" "x_model_2.json" [] [] 15 "min" [] 1 2
      (by decide) (by decide) (by decide) (by decide) (by decide) (by decide)⟩

/-- With the PAE matrix in use, `process_contact` either succeeds or fails
with the index error: no other exception can escape the loop body. -/
theorem process_contact_ok_or_index (mnum : ℕ) (pae_data : List ℚ) (N : ℕ) (mp : ℚ)
    (mode : String) (aas : List Char) (acc : FilteredContacts) (c : GeoContact) :
    (∃ acc2, process_contact mnum false pae_data N mp mode aas acc c = .ok acc2) ∨
    process_contact mnum false pae_data N mp mode aas acc c = .error .paeIndexError := by
  rw [process_contact]
  simp only [Bool.false_eq_true, if_false]
  split_ifs <;> first | (right; rfl) | (left; exact ⟨_, rfl⟩)

/-- C7: the payload-shape validation of the PAE accessor rejects any payload
whose length is not a perfect square; `process_contact` raises the index error
whenever either linear index computed from the residue absolute-index pair
reaches past the payload; and the contact-filtering loop as a whole aborts
with that error — rather than returning partial data — as soon as any contact
in the list has an out-of-range index pair. -/
theorem C7_pae_error_handling :
    (∀ payload : List ℚ, (¬ ∃ k : ℕ, k ^ 2 = payload.length) →
        get_pae_values payload = .error .paeParseError) ∧
    (∀ (mnum : ℕ) (pae_data : List ℚ) (N : ℕ) (mp : ℚ) (mode : String)
        (aas : List Char) (acc : FilteredContacts) (c : GeoContact),
        (pae_linear_index N c.aa1.a_ix c.aa2.a_ix ≥ (pae_data.length : ℤ) ∨
         pae_linear_index N c.aa2.a_ix c.aa1.a_ix ≥ (pae_data.length : ℤ)) →
        process_contact mnum false pae_data N mp mode aas acc c = .error .paeIndexError) ∧
    (∀ (mnum : ℕ) (pae_data : List ℚ) (N : ℕ) (mp : ℚ) (mode : String)
        (aas : List Char) (geo : List GeoContact) (acc : FilteredContacts),
        (∃ c ∈ geo,
          pae_linear_index N c.aa1.a_ix c.aa2.a_ix ≥ (pae_data.length : ℤ) ∨
          pae_linear_index N c.aa2.a_ix c.aa1.a_ix ≥ (pae_data.length : ℤ)) →
        geo.foldlM (process_contact mnum false pae_data N mp mode aas) acc =
          .error .paeIndexError) := by
  have hidx : ∀ (mnum : ℕ) (pae_data : List ℚ) (N : ℕ) (mp : ℚ) (mode : String)
      (aas : List Char) (acc : FilteredContacts) (c : GeoContact),
      (pae_linear_index N c.aa1.a_ix c.aa2.a_ix ≥ (pae_data.length : ℤ) ∨
       pae_linear_index N c.aa2.a_ix c.aa1.a_ix ≥ (pae_data.length : ℤ)) →
      process_contact mnum false pae_data N mp mode aas acc c = .error .paeIndexError := by
    intro mnum pae_data N mp mode aas acc c hc
    rw [process_contact]
    simp only [Bool.false_eq_true, if_false]
    rw [if_pos hc]
  refine ⟨fun payload hlen => ?_, hidx, fun mnum pae_data N mp mode aas geo => ?_⟩
  · have hne : payload.length ≠ Nat.sqrt payload.length ^ 2 := fun hc =>
      hlen ⟨Nat.sqrt payload.length, hc.symm⟩
    rw [get_pae_values, if_pos hne]
  · induction geo with
    | nil => rintro acc ⟨c, hc, _⟩; cases hc
    | cons c rest ih =>
      rintro acc ⟨c2, hc2, hbad⟩
      rw [List.foldlM_cons]
      rcases List.mem_cons.mp hc2 with rfl | hmem
      · rw [hidx mnum pae_data N mp mode aas acc c2 hbad, exceptBind_error]
      · rcases process_contact_ok_or_index mnum pae_data N mp mode aas acc c with
          ⟨acc2, hok⟩ | herr
        · rw [hok, exceptBind_ok]
          exact ih acc2 ⟨c2, hmem, hbad⟩
        · rw [herr, exceptBind_error]

/-- Witness for C7: the 3-entry payload is not square; the out-of-range
contact (absolute index 10 against a 2-residue matrix) makes both the single
step and the whole loop over `[demoGeoContact, badGeoContact]` fail. -/
theorem C7_pae_error_handling_witness :
    get_pae_values [0, 5, 5] = .error .paeParseError ∧
    process_contact 1 false [0, 5, 5, 0] 2 15 "min" [] [] badGeoContact =
      .error .paeIndexError ∧
    [demoGeoContact, badGeoContact].foldlM (process_contact 1 false [0, 5, 5, 0] 2 15 "min" [])
      [] = .error .paeIndexError :=
  ⟨C7_pae_error_handling.1 [0, 5, 5] (by
      rw [show ([0, 5, 5] : List ℚ).length = 3 from by decide]
      rintro ⟨k, hk⟩
      rcases Nat.lt_or_ge k 2 with h | h
      · interval_cases k <;> omega
      · nlinarith),
   C7_pae_error_handling.2.1 1 [0, 5, 5, 0] 2 15 "min" [] [] badGeoContact (by decide),
   C7_pae_error_handling.2.2 1 [0, 5, 5, 0] 2 15 "min" [] [demoGeoContact, badGeoContact] []
      ⟨badGeoContact, by decide, by decide⟩⟩

/-- `dist2` is the square of the Euclidean distance between the two points. -/
theorem dist2_cast (v w : V3 ℚ) : ((dist2 v w : ℚ) : ℝ) = dist (toE v) (toE w) ^ 2 := by
  rw [EuclideanSpace.dist_eq, Real.sq_sqrt (by positivity), Fin.sum_univ_three]
  have h0 : ∀ u : V3 ℚ, toE u 0 = (u.x : ℝ) := fun u => rfl
  have h1 : ∀ u : V3 ℚ, toE u 1 = (u.y : ℝ) := fun u => rfl
  have h2 : ∀ u : V3 ℚ, toE u 2 = (u.z : ℝ) := fun u => rfl
  rw [h0, h0, h1, h1, h2, h2]
  simp only [Real.dist_eq, sq_abs, dist2]
  push_cast
  ring

/-- The inner fold of `get_closest_atoms_d2` drops below `c` exactly when the
start value does or some later atom pair does. -/
theorem foldl_min_inner_lt (a1 : V3 ℚ) (l : List (V3 ℚ)) (m c : ℚ) :
    l.foldl (fun m2 a2 => min m2 (dist2 a1 a2)) m < c ↔
      m < c ∨ ∃ a2 ∈ l, dist2 a1 a2 < c := by
  induction l generalizing m with
  | nil => simp
  | cons b rest ih =>
    rw [List.foldl_cons, ih]
    simp only [min_lt_iff, List.mem_cons]
    constructor
    · rintro ((h | h) | ⟨a2, ha2, hlt⟩)
      · exact Or.inl h
      · exact Or.inr ⟨b, Or.inl rfl, h⟩
      · exact Or.inr ⟨a2, Or.inr ha2, hlt⟩
    · rintro (h | ⟨a2, ha2 | ha2, hlt⟩)
      · exact Or.inl (Or.inl h)
      · rw [ha2] at hlt
        exact Or.inl (Or.inr hlt)
      · exact Or.inr ⟨a2, ha2, hlt⟩

/-- The minimum pairwise squared distance drops below `c` exactly when the
`1e6` sentinel does or some atom pair does. -/
theorem get_closest_atoms_d2_lt_iff (r1 r2 : List (V3 ℚ)) (c : ℚ) :
    get_closest_atoms_d2 r1 r2 < c ↔
      1000000 < c ∨ ∃ a1 ∈ r1, ∃ a2 ∈ r2, dist2 a1 a2 < c := by
  rw [get_closest_atoms_d2]
  have main : ∀ (l1 : List (V3 ℚ)) (m : ℚ),
      l1.foldl (fun m a1 => r2.foldl (fun m2 a2 => min m2 (dist2 a1 a2)) m) m < c ↔
        m < c ∨ ∃ a1 ∈ l1, ∃ a2 ∈ r2, dist2 a1 a2 < c := by
    intro l1
    induction l1 with
    | nil => simp
    | cons b rest ih =>
      intro m
      rw [List.foldl_cons, ih, foldl_min_inner_lt]
      simp only [List.mem_cons]
      constructor
      · rintro ((h | ⟨a2, ha2, hlt⟩) | ⟨a1, ha1, h⟩)
        · exact Or.inl h
        · exact Or.inr ⟨b, Or.inl rfl, a2, ha2, hlt⟩
        · exact Or.inr ⟨a1, Or.inr ha1, h⟩
      · rintro (h | ⟨a1, rfl | ha1, h⟩)
        · exact Or.inl (Or.inl h)
        · exact Or.inl (Or.inr h)
        · exact Or.inr ⟨a1, ha1, h⟩
  exact main r1 1000000

/-- C3 (counterexample): with cutoff `d = 8`, a residue whose nitrogen sits at
the origin but which has an atom at x = 25, against a residue whose nitrogen
sits at x = 50 with an atom at x = 26: the closest atom pair is 1 Å apart, so
the narrow phase accepts, yet the nitrogen-nitrogen squared distance 2500
exceeds the relaxed cutoff (8+20)^2 = 784, so the broad phase would have
pruned the pair.  The claimed superset relation fails for atoms displaced more
than 10 Å from their backbone nitrogen. -/
theorem C3_counterexample :
    (0 : ℚ) < 8 ∧
    narrow_phase_accept 8 [⟨0, 0, 0⟩, ⟨25, 0, 0⟩] [⟨50, 0, 0⟩, ⟨26, 0, 0⟩] ∧
    ¬ broad_phase_candidate 8 ⟨0, 0, 0⟩ ⟨50, 0, 0⟩ := by
  refine ⟨by norm_num, ?_, ?_⟩
  · show get_closest_atoms_d2 _ _ < (8 : ℚ) ^ 2
    rw [get_closest_atoms_d2_lt_iff]
    refine Or.inr ⟨⟨25, 0, 0⟩, by simp, ⟨26, 0, 0⟩, by simp, ?_⟩
    rw [dist2]
    norm_num
  · show ¬ dist2 _ _ < (8 + 20 : ℚ) ^ 2
    rw [dist2]
    norm_num

/-- C3 (amended): the broad-phase candidate set contains every narrow-phase
accepted residue pair provided the cutoff `d` is positive, `d` does not exceed
the 1000 Å narrow-phase sentinel (`1e6` squared), and every atom of each
residue lies within 10 Å of the backbone nitrogen reference point of its
residue (squared displacement at most 100) — the triangle-inequality margin of
20 Å then absorbs both displacements. -/
theorem C3_broad_superset_of_bounded_displacement (d : ℚ) (r1 r2 : List (V3 ℚ))
    (n1 n2 : V3 ℚ) (hd : 0 < d) (hsent : d ≤ 1000)
    (h1 : ∀ a ∈ r1, dist2 a n1 ≤ 100) (h2 : ∀ a ∈ r2, dist2 a n2 ≤ 100)
    (hn : narrow_phase_accept d r1 r2) : broad_phase_candidate d n1 n2 := by
  rw [narrow_phase_accept, get_closest_atoms_d2_lt_iff] at hn
  have hd2 : ¬ (1000000 : ℚ) < d ^ 2 := by
    push_neg
    calc d ^ 2 ≤ 1000 ^ 2 := pow_le_pow_left₀ hd.le hsent 2
    _ = 1000000 := by norm_num
  rcases hn with h | ⟨a1, ha1, a2, ha2, hlt⟩
  · exact absurd h hd2
  have hdR : (0 : ℝ) < (d : ℝ) := by exact_mod_cast hd
  have hA : dist (toE a1) (toE a2) < (d : ℝ) := by
    apply lt_of_pow_lt_pow_left₀ 2 hdR.le
    rw [← dist2_cast]
    exact_mod_cast hlt
  have hB : dist (toE a1) (toE n1) ≤ 10 := by
    apply le_of_pow_le_pow_left₀ two_ne_zero (by norm_num : (0 : ℝ) ≤ 10)
    rw [← dist2_cast]
    calc ((dist2 a1 n1 : ℚ) : ℝ) ≤ ((100 : ℚ) : ℝ) := by exact_mod_cast h1 a1 ha1
    _ = 10 ^ 2 := by norm_num
  have hC : dist (toE a2) (toE n2) ≤ 10 := by
    apply le_of_pow_le_pow_left₀ two_ne_zero (by norm_num : (0 : ℝ) ≤ 10)
    rw [← dist2_cast]
    calc ((dist2 a2 n2 : ℚ) : ℝ) ≤ ((100 : ℚ) : ℝ) := by exact_mod_cast h2 a2 ha2
    _ = 10 ^ 2 := by norm_num
  have htri : dist (toE n1) (toE n2) < (d : ℝ) + 20 := by
    calc dist (toE n1) (toE n2) ≤
        dist (toE n1) (toE a1) + dist (toE a1) (toE a2) + dist (toE a2) (toE n2) :=
          dist_triangle4 _ _ _ _
    _ = dist (toE a1) (toE n1) + dist (toE a1) (toE a2) + dist (toE a2) (toE n2) := by
          rw [dist_comm]
    _ < 10 + (d : ℝ) + 10 := by
          have := hA
          have := hB
          have := hC
          linarith
    _ = (d : ℝ) + 20 := by ring
  rw [broad_phase_candidate]
  have : ((dist2 n1 n2 : ℚ) : ℝ) < (((d + 20) ^ 2 : ℚ) : ℝ) := by
    rw [dist2_cast]
    push_cast
    calc dist (toE n1) (toE n2) ^ 2 < ((d : ℝ) + 20) ^ 2 :=
      pow_lt_pow_left₀ htri dist_nonneg two_ne_zero
    _ = ((d : ℝ) + 20) ^ 2 := rfl
  exact_mod_cast this

/-- Witness for C3 (amended): two single-atom residues whose atoms coincide
with their nitrogens, 5 Å apart, with cutoff 8 Å: the narrow phase accepts
and the pair is indeed a broad-phase candidate. -/
theorem C3_broad_superset_witness :
    broad_phase_candidate 8 ⟨0, 0, 0⟩ ⟨5, 0, 0⟩ :=
  C3_broad_superset_of_bounded_displacement 8 [⟨0, 0, 0⟩] [⟨5, 0, 0⟩] ⟨0, 0, 0⟩ ⟨5, 0, 0⟩
    (by norm_num) (by norm_num)
    (by intro a ha; rw [List.mem_singleton] at ha; rw [ha, dist2]; norm_num)
    (by intro a ha; rw [List.mem_singleton] at ha; rw [ha, dist2]; norm_num)
    (by
      show get_closest_atoms_d2 _ _ < (8 : ℚ) ^ 2
      rw [get_closest_atoms_d2_lt_iff]
      exact Or.inr ⟨⟨0, 0, 0⟩, by simp, ⟨5, 0, 0⟩, by simp, by rw [dist2]; norm_num⟩)

/-- A list is the tabulation of its own defaulted lookups. -/
theorem range_map_getD {α : Type} (acc : List (List α)) :
    (List.range acc.length).map (fun g => acc.getD g []) = acc := by
  apply List.ext_getElem
  · simp
  · intro i h1 h2
    simp only [List.getElem_map, List.getElem_range, List.getD_eq_getElem?_getD]
    rw [List.getElem?_eq_getElem h2]
    rfl

/-- Setting one bin leaves the defaulted lookups of the other bins alone. -/
theorem getD_set_eq_of_lt {α : Type} (acc : List (List α)) (i : ℕ) (v : List α)
    (h : i < acc.length) : (acc.set i v).getD i [] = v := by
  rw [List.getD_eq_getElem?_getD, List.getElem?_set_eq_of_lt v h]
  rfl

/-- Lookup away from the set position is unchanged. -/
theorem getD_set_ne {α : Type} (acc : List (List α)) (i j : ℕ) (v : List α)
    (h : i ≠ j) : (acc.set i v).getD j [] = acc.getD j [] := by
  rw [List.getD_eq_getElem?_getD, List.getElem?_set_ne h, ← List.getD_eq_getElem?_getD]

/-- The round-robin fold of `distribute`, characterized bin by bin: starting
from any table of `n` bins, bin `g` ends up with its start contents followed
by the items whose enumeration index is congruent to `g` modulo `n`. -/
theorem distribute_foldl_eq {α : Type} (n : ℕ) (hn : 0 < n) (l : List α) :
    ∀ (k : ℕ) (acc : List (List α)), acc.length = n →
    (List.enumFrom k l).foldl
        (fun acc p => acc.set (p.1 % n) (acc.getD (p.1 % n) [] ++ [p.2])) acc
      = (List.range n).map
          (fun g => acc.getD g [] ++
            ((List.enumFrom k l).filter (fun p => p.1 % n == g)).map (·.2)) := by
  induction l with
  | nil =>
    intro k acc hacc
    simp only [List.enumFrom_nil, List.foldl_nil, List.filter_nil, List.map_nil,
      List.append_nil]
    rw [← hacc, range_map_getD]
  | cons x rest ih =>
    intro k acc hacc
    rw [List.enumFrom_cons, List.foldl_cons]
    have hlen : (acc.set (k % n) (acc.getD (k % n) [] ++ [x])).length = n := by
      rw [List.length_set, hacc]
    rw [ih (k + 1) _ hlen]
    apply List.map_congr_left
    intro g hg
    rw [List.mem_range] at hg
    by_cases hkg : k % n = g
    · rw [← hkg, getD_set_eq_of_lt _ _ _ (by rw [hacc]; exact Nat.mod_lt k hn),
        List.filter_cons, if_pos (by simp [hkg])]
      simp [hkg]
    · rw [getD_set_ne _ _ _ _ hkg, List.filter_cons, if_neg (by simp [hkg])]

/-- Counting enumeration indices satisfying a predicate is counting the
indices themselves. -/
theorem countP_enumFrom_fst {α : Type} (q : ℕ → Bool) (l : List α) :
    ∀ k : ℕ, (List.enumFrom k l).countP (fun p => q p.1) =
      (List.range' k l.length).countP q := by
  induction l with
  | nil => intro k; rfl
  | cons x rest ih =>
    intro k
    rw [List.enumFrom_cons, List.countP_cons, List.length_cons, List.range'_succ,
      List.countP_cons, ih (k + 1)]

/-- Among the numbers below `len`, exactly `len / n` (plus one more when
`g < len % n`) are congruent to `g` modulo `n`. -/
theorem countP_range_mod (n g : ℕ) (hn : 0 < n) (hg : g < n) :
    ∀ len : ℕ, (List.range len).countP (fun j => j % n == g) =
      len / n + (if g < len % n then 1 else 0) := by
  intro len
  induction len with
  | zero => simp
  | succ len ih =>
    rw [List.range_succ, List.countP_append, ih]
    have hr : len % n < n := Nat.mod_lt len hn
    rcases Nat.lt_or_ge (len % n + 1) n with hcase | hcase
    · have hmod : (len + 1) % n = len % n + 1 := by
        conv_lhs => rw [← Nat.div_add_mod len n, Nat.add_assoc]
        rw [Nat.mul_add_mod, Nat.mod_eq_of_lt hcase]
      have hdiv : (len + 1) / n = len / n := by
        conv_lhs => rw [← Nat.div_add_mod len n, Nat.add_assoc]
        rw [Nat.mul_add_div hn, Nat.div_eq_of_lt hcase, Nat.add_zero]
      rw [hdiv, hmod]
      simp only [List.countP_cons, List.countP_nil, beq_iff_eq]
      split_ifs <;> omega
    · have hneq : len % n + 1 = n := by omega
      have hmod : (len + 1) % n = 0 := by
        conv_lhs => rw [← Nat.div_add_mod len n, Nat.add_assoc, hneq, ← Nat.mul_succ]
        rw [Nat.mul_mod_right]
      have hdiv : (len + 1) / n = len / n + 1 := by
        conv_lhs => rw [← Nat.div_add_mod len n, Nat.add_assoc, hneq, ← Nat.mul_succ]
        rw [Nat.mul_div_cancel_left _ hn]
      rw [hdiv, hmod]
      simp only [List.countP_cons, List.countP_nil, beq_iff_eq]
      split_ifs <;> omega

/-- The size of bin `g` of `roundRobinGroups`. -/
theorem roundRobinGroups_length {α : Type} (lst : List α) (n g : ℕ) (hn : 0 < n)
    (hg : g < n) :
    ((lst.enum.filter (fun p => p.1 % n == g)).map (·.2)).length =
      lst.length / n + (if g < lst.length % n then 1 else 0) := by
  rw [List.length_map, ← List.countP_eq_length_filter]
  show (List.enumFrom 0 lst).countP (fun p => p.1 % n == g) = _
  rw [countP_enumFrom_fst (fun j => j % n == g) lst 0, ← List.range_eq_range',
    countP_range_mod n g hn hg lst.length]

/-- C9 (counterexample): `distribute` on a 3-item list over 2 bins returns
groups of sizes 2 and 1 — the groups are not all equal-sized as claimed. -/
theorem C9_counterexample :
    distribute [0, 1, 2] (2 : ℤ) = .ok [[0, 2], [1]] ∧
    ([[0, 2], [1]] : List (List ℕ)).map List.length = [2, 1] ∧ (2 : ℕ) ≠ 1 := by
  refine ⟨by rfl, by decide, by decide⟩

/-- C9 (amended): `distribute` errors for fewer than one bin; otherwise it
returns exactly `min(n_bins, length)` bins filled round-robin — the item at
position `k` lands in bin `k mod (number of bins)` — with no empty bin when
the list is non-empty, and with bin sizes differing by at most one (not
necessarily all equal). -/
theorem C9_distribute_round_robin {α : Type} (lst : List α) (n_bins : ℤ) :
    (n_bins < 1 →
      distribute lst n_bins = .error "The number of bins must be greater than 0") ∧
    (1 ≤ n_bins →
      distribute lst n_bins = .ok (roundRobinGroups lst (min n_bins.toNat lst.length)) ∧
      (roundRobinGroups lst (min n_bins.toNat lst.length)).length
          = min n_bins.toNat lst.length ∧
      (lst ≠ [] →
        ∀ g ∈ roundRobinGroups lst (min n_bins.toNat lst.length), g ≠ []) ∧
      (∀ g1 ∈ roundRobinGroups lst (min n_bins.toNat lst.length),
       ∀ g2 ∈ roundRobinGroups lst (min n_bins.toNat lst.length),
        g1.length ≤ g2.length + 1)) := by
  refine ⟨fun hlt => by rw [distribute, if_pos hlt], fun hge => ?_⟩
  have hmin : min n_bins.toNat lst.length ≤ lst.length := min_le_right _ _
  refine ⟨?_, by simp [roundRobinGroups], fun hne g hmem => ?_, fun g1 h1 g2 h2 => ?_⟩
  · rw [distribute, if_neg (by omega)]
    dsimp only
    by_cases hne : lst = []
    · subst hne
      simp [roundRobinGroups]
    · have hpos : 0 < lst.length := List.length_pos.mpr hne
      have hn : 0 < min n_bins.toNat lst.length := lt_min (by omega) hpos
      rw [show lst.enum = List.enumFrom 0 lst from rfl,
        distribute_foldl_eq _ hn _ 0 _ (List.length_replicate _ _)]
      rw [roundRobinGroups]
      congr 1
      apply List.map_congr_left
      intro g hg
      have hrep : (List.replicate (min n_bins.toNat lst.length) ([] : List α)).getD g []
          = [] := by
        rw [List.getD_eq_getElem?_getD, List.getElem?_replicate]
        split <;> rfl
      rw [hrep, List.nil_append]
      rfl
  · obtain ⟨g0, hg0, rfl⟩ := List.mem_map.mp hmem
    rw [List.mem_range] at hg0
    have hn : 0 < min n_bins.toNat lst.length := Nat.lt_of_le_of_lt (Nat.zero_le g0) hg0
    apply List.ne_nil_of_length_pos
    rw [roundRobinGroups_length lst _ g0 hn hg0]
    have : 1 ≤ lst.length / min n_bins.toNat lst.length := (Nat.one_le_div_iff hn).mpr hmin
    omega
  · obtain ⟨ga, hga, rfl⟩ := List.mem_map.mp h1
    obtain ⟨gb, hgb, rfl⟩ := List.mem_map.mp h2
    rw [List.mem_range] at hga hgb
    have hn : 0 < min n_bins.toNat lst.length := Nat.lt_of_le_of_lt (Nat.zero_le ga) hga
    rw [roundRobinGroups_length lst _ ga hn hga, roundRobinGroups_length lst _ gb hn hgb]
    split_ifs <;> omega

/-- Witness for C9: zero bins error out; three items over two bins give the
two non-empty round-robin groups. -/
theorem C9_distribute_round_robin_witness :
    distribute ([] : List ℕ) (0 : ℤ) =
      .error "The number of bins must be greater than 0" ∧
    distribute [0, 1, 2] (2 : ℤ) =
      .ok (roundRobinGroups [0, 1, 2] (min (Int.toNat 2) (List.length [0, 1, 2]))) ∧
    ∀ g ∈ roundRobinGroups [0, 1, 2] (min (Int.toNat 2) (List.length [0, 1, 2])), g ≠ [] :=
  ⟨(C9_distribute_round_robin [] 0).1 (by decide),
   ((C9_distribute_round_robin [0, 1, 2] 2).2 (by decide)).1,
   ((C9_distribute_round_robin [0, 1, 2] 2).2 (by decide)).2.2.1 (by decide)⟩

theorem getLast?_some_decomp {α : Type} {l : List α} {x : α} (h : l.getLast? = some x) :
    l = l.dropLast ++ [x] := by
  have hne : l ≠ [] := by rintro rfl; simp at h
  have h2 := List.getLast?_eq_getLast l hne
  rw [h] at h2
  obtain rfl : x = l.getLast hne := Option.some.inj h2
  exact (List.dropLast_append_getLast hne).symm

theorem appendAtom_ok {st : ParseState} {a : Atom} {st2 : ParseState}
    (h : appendAtomToCurrent st a = .ok st2) :
    st2.abs_res_index = st.abs_res_index ∧
    (flatResidues st2).map (·.a_ix) = (flatResidues st).map (·.a_ix) := by
  rw [appendAtomToCurrent] at h
  rcases hL : st.residues.getLast? with _ | lc
  · rw [hL] at h; cases h
  · rw [hL] at h
    dsimp only at h
    rcases hlc : lc.getLast? with _ | res
    · rw [hlc] at h; cases h
    · rw [hlc] at h
      dsimp only at h
      injection h with h2
      subst h2
      refine ⟨rfl, ?_⟩
      show ((setLast st.residues (setLast lc _)).flatten).map _ = _
      rw [flatResidues]
      have hdec : st.residues = st.residues.dropLast ++ [lc] := getLast?_some_decomp hL
      have hlcdec : lc = lc.dropLast ++ [res] := getLast?_some_decomp hlc
      rw [setLast, setLast, List.flatten_concat]
      conv_rhs => rw [hdec, List.flatten_concat]
      conv_rhs => rw [hlcdec]
      simp [List.map_append]

theorem flatten_setLast_getLastD {L : List (List Residue)} {r : Residue} :
    (setLast L (L.getLastD [] ++ [r])).flatten = L.flatten ++ [r] := by
  rcases List.eq_nil_or_concat L with rfl | ⟨L2, lc, rfl⟩
  · rfl
  · rw [List.concat_eq_append, List.getLastD_concat, setLast, List.dropLast_concat,
      List.flatten_concat, List.flatten_concat, List.append_assoc]

theorem parseStep_ok {p : ℚ} {vs : List Char} {st : ParseState} {l : AtomLine}
    {st2 : ParseState} (h : parseStep p vs st l = .ok st2) :
    st2.abs_res_index = st.abs_res_index + (if isNAtomLine l then 1 else 0) ∧
    (flatResidues st2).map (·.a_ix) =
      (flatResidues st).map (·.a_ix) ++
        (if residueKept p vs l then [st.abs_res_index + 1] else []) := by
  rw [parseStep] at h
  by_cases hrec : l.record_name = "ATOM"
  case neg =>
    rw [if_pos hrec] at h
    injection h with h2
    subst h2
    have hN : isNAtomLine l = false := by simp [isNAtomLine, hrec]
    have hK : residueKept p vs l = false := by simp [residueKept, isNAtomLine, hrec]
    rw [hN, hK]
    simp
  case pos =>
    rw [if_neg (by simp [hrec])] at h
    dsimp only at h
    rcases Bool.eq_false_or_eq_true (l.atom_type == "N") with hN | hN <;> rw [hN] at h
    · -- nitrogen line
      simp only [eq_self_iff_true, if_true] at h
      have hNAtom : isNAtomLine l = true := by simp [isNAtomLine, hrec, hN]
      rw [hNAtom]
      by_cases hbf : l.bfactor < p
      · rw [if_pos hbf] at h
        injection h with h2
        subst h2
        have hK : residueKept p vs l = false := by
          simp [residueKept, hbf]
        rw [hK]
        simp [flatResidues]
      · rw [if_neg hbf] at h
        rcases haa : aa_3c_to_1c l.res3 with _ | aa <;> rw [haa] at h <;> dsimp only at h
        · cases h
        · by_cases hvs : 0 < vs.length ∧ aa ∉ vs
          · rw [if_pos hvs] at h
            injection h with h2
            subst h2
            have hK : residueKept p vs l = false := by
              simp only [residueKept, haa]
              simp [hvs]
            rw [hK]
            simp [flatResidues]
          · rw [if_neg hvs] at h
            have hK : residueKept p vs l = true := by
              simp only [residueKept, hNAtom, haa]
              simp [hbf, hvs]
            rw [hK]
            by_cases hch : st.last_chain ≠ some l.chain
            · rw [if_pos hch] at h
              dsimp only at h
              obtain ⟨habs, hflat⟩ := appendAtom_ok h
              rw [habs, hflat]
              refine ⟨rfl, ?_⟩
              rw [flatResidues, flatten_setLast_getLastD, List.flatten_concat]
              simp [flatResidues]
            · rw [if_neg hch] at h
              dsimp only at h
              obtain ⟨habs, hflat⟩ := appendAtom_ok h
              rw [habs, hflat]
              refine ⟨rfl, ?_⟩
              rw [flatResidues, flatten_setLast_getLastD]
              simp [flatResidues]
    · -- not a nitrogen line
      simp only [Bool.false_eq_true, if_false] at h
      have hNAtom : isNAtomLine l = false := by simp [isNAtomLine, hN]
      have hK : residueKept p vs l = false := by simp [residueKept, isNAtomLine, hN]
      rw [hNAtom, hK]
      by_cases hbf : l.bfactor < p
      · rw [if_pos hbf] at h
        injection h with h2
        subst h2
        simp
      · rw [if_neg hbf] at h
        rcases haa : aa_3c_to_1c l.res3 with _ | aa <;> rw [haa] at h <;> dsimp only at h
        · cases h
        · by_cases hvs : 0 < vs.length ∧ aa ∉ vs
          · rw [if_pos hvs] at h
            injection h with h2
            subst h2
            simp
          · rw [if_neg hvs] at h
            obtain ⟨habs, hflat⟩ := appendAtom_ok h
            rw [habs, hflat]
            simp

theorem if_true_bool {α : Sort _} (a b : α) : (if (true : Bool) = true then a else b) = a := rfl

theorem residueKept_isN {p : ℚ} {vs : List Char} {l : AtomLine}
    (h : residueKept p vs l = true) : isNAtomLine l = true := by
  rw [residueKept, Bool.and_assoc, Bool.and_eq_true] at h
  exact h.1

theorem parseLines_ok {p : ℚ} {vs : List Char} :
    ∀ (lines : List AtomLine) (st st2 : ParseState),
      parseLines p vs st lines = .ok st2 →
      st2.abs_res_index = st.abs_res_index + lines.countP isNAtomLine ∧
      (flatResidues st2).map (·.a_ix) =
        (flatResidues st).map (·.a_ix) ++ keptAixs p vs st.abs_res_index lines := by
  intro lines
  induction lines with
  | nil =>
    intro st st2 h
    rw [parseLines] at h
    injection h with h2
    subst h2
    simp [keptAixs]
  | cons l rest ih =>
    intro st st2 h
    rw [parseLines] at h
    rcases hstep : parseStep p vs st l with e | st1 <;> rw [hstep] at h
    · cases h
    · dsimp only at h
      obtain ⟨habs1, hflat1⟩ := parseStep_ok hstep
      obtain ⟨habs2, hflat2⟩ := ih st1 st2 h
      constructor
      · rw [habs2, habs1, List.countP_cons]
        rcases Bool.eq_false_or_eq_true (isNAtomLine l) with hb | hb <;>
          simp only [hb, Bool.false_eq_true, if_false, if_true_bool, if_true] <;> omega
      · rw [hflat2, hflat1, keptAixs, habs1]
        rcases Bool.eq_false_or_eq_true (residueKept p vs l) with hb | hb
        · rw [hb, residueKept_isN hb]
          simp [List.append_assoc]
        · rw [hb]
          rcases Bool.eq_false_or_eq_true (isNAtomLine l) with hn | hn <;>
            simp [hn, List.append_assoc]

theorem keptAixs_enum (p : ℚ) (vs : List Char) :
    ∀ (lines : List AtomLine) (k cnt : ℕ),
      keptAixs p vs cnt lines =
        ((List.enumFrom k lines).filter (fun q => residueKept p vs q.2)).map
          (fun q => cnt + (lines.take (q.1 + 1 - k)).countP isNAtomLine) := by
  intro lines
  induction lines with
  | nil => intro k cnt; rfl
  | cons l rest ih =>
    intro k cnt
    rw [keptAixs, List.enumFrom_cons]
    rcases Bool.eq_false_or_eq_true (residueKept p vs l) with hb | hb <;> rw [hb]
    swap
    · rw [List.filter_cons_of_neg (by simpa using hb)]
      rw [ih (k + 1)]
      apply List.map_congr_left
      intro q hq
      have hqmem := List.mem_of_mem_filter hq
      have hk1 : k + 1 ≤ q.1 := (List.mem_enumFrom hqmem).1
      have hsplit : q.1 + 1 - k = (q.1 + 1 - (k + 1)) + 1 := by omega
      rw [hsplit, List.take_succ_cons, List.countP_cons]
      rcases Bool.eq_false_or_eq_true (isNAtomLine l) with hn | hn <;>
        simp only [hn, Bool.false_eq_true, if_false, if_true_bool, if_true] <;> omega
    · have hN := residueKept_isN hb
      rw [List.filter_cons_of_pos (by simpa using hb), List.map_cons, ih (k + 1), hN]
      simp only [if_true_bool, if_true]
      congr 1
      · show cnt + 1 = cnt + (List.take (k + 1 - k) (l :: rest)).countP isNAtomLine
        have h1 : k + 1 - k = 1 := by omega
        rw [h1]
        show cnt + 1 = cnt + List.countP isNAtomLine [l]
        rw [List.countP_cons, List.countP_nil, hN]
        simp only [if_true_bool, if_true]
      · apply List.map_congr_left
        intro q hq
        have hqmem := List.mem_of_mem_filter hq
        have hk1 : k + 1 ≤ q.1 := (List.mem_enumFrom hqmem).1
        have hsplit : q.1 + 1 - k = (q.1 + 1 - (k + 1)) + 1 := by omega
        rw [hsplit, List.take_succ_cons, List.countP_cons, hN]
        simp only [if_true_bool, if_true]
        omega


/-- C10: for every successfully parsed structure, the absolute indices of the
retained residues, in file order, are exactly the 1-based running counts of
backbone-nitrogen `ATOM` records up to and including each retained residue
line: residues dropped by the pLDDT cutoff or the amino-acid restriction
still advance the counter. -/
theorem C10_abs_index_is_running_N_count (p : ℚ) (vs : List Char) (lines : List AtomLine)
    (st2 : ParseState) (h : parseLines p vs initParseState lines = .ok st2) :
    (flatResidues st2).map (·.a_ix) =
      (lines.enum.filter (fun q => residueKept p vs q.2)).map
        (fun q => (lines.take (q.1 + 1)).countP isNAtomLine) := by
  obtain ⟨-, hflat⟩ := parseLines_ok lines initParseState st2 h
  rw [hflat]
  rw [show flatResidues initParseState = [] from rfl, List.map_nil, List.nil_append]
  rw [show initParseState.abs_res_index = 0 from rfl]
  rw [keptAixs_enum p vs lines 0 0]
  apply List.map_congr_left
  intro q hq
  simp

/-- Witness for C10 on `demoLines`: the retained residues carry absolute
indices 1 and 3 — the glycine nitrogen rejected by the pLDDT cutoff still
advanced the counter between them. -/
theorem C10_abs_index_is_running_N_count_witness :
    (flatResidues demoParsedState).map (·.a_ix) =
      (demoLines.enum.filter (fun q => residueKept 50 [] q.2)).map
        (fun q => (demoLines.take (q.1 + 1)).countP isNAtomLine) ∧
    (flatResidues demoParsedState).map (·.a_ix) = [1, 3] :=
  ⟨C10_abs_index_is_running_N_count 50 [] demoLines demoParsedState (by decide),
   by decide⟩
